import Mathlib

/-!
Shallow embedding of the real-time audio streaming pipeline and live-session
protocol of the voice-to-tables client (src/services/AudioStreamPlayer.ts and
src/services/chatRepository.ts), together with proofs of the specified
properties of the playback queue drain, the resamplers, the PCM16 encoder,
the session state machine, the capture gating, and the tool-call round trip.

Audio samples are modelled as exact rationals (ℚ); JavaScript `Math.round`
and `Math.floor` on the nonnegative quantities used by the code are modelled
with `Nat.floor`.
-/

namespace VoiceToTables

/-! ## Playback queue drain (AudioStreamPlayer.start, onaudioprocess) -/

/-- The FIFO copy loop inside `onaudioprocess` of `AudioStreamPlayer.start`:

      let offset = 0;
      while (offset < output.length && this.audioQueue.length > 0) {
        const nextBuffer = this.audioQueue[0];
        const chunkLength = Math.min(nextBuffer.length, output.length - offset);
        output.set(nextBuffer.subarray(0, chunkLength), offset);
        offset += chunkLength;
        if (chunkLength === nextBuffer.length) { this.audioQueue.shift(); }
        else { this.audioQueue[0] = nextBuffer.subarray(chunkLength); }
      }

The first component is the region `output[0:offset)` actually copied from the
queue; the second is the queue left behind.  The argument `m` is the remaining
request `output.length - offset`. -/
def drainCopyLoop : List (List ℚ) → Nat → List ℚ × List (List ℚ)
  | q, 0 => ([], q)
  | [], _ + 1 => ([], [])
  | b :: rest, m + 1 =>
    if b.length ≤ m + 1 then
      let r := drainCopyLoop rest (m + 1 - b.length)
      (b ++ r.1, r.2)
    else
      (b.take (m + 1), b.drop (m + 1) :: rest)
termination_by q _ => q.length

/-- Result of one invocation of the playback drain callback. -/
structure DrainResult where
  output : List ℚ
  real : List ℚ
  queue : List (List ℚ)
deriving DecidableEq, Repr

/-- One invocation of the `onaudioprocess` drain callback of
`AudioStreamPlayer.start` on queue `q` with an output buffer of `n` samples:
if the queue is empty the whole buffer is filled with silence; otherwise the
copy loop runs and, if it ran out of data mid-buffer (`offset < output.length`),
the rest of the buffer is filled with silence.  `real` is the copied region
`output[0:offset)`. -/
def drainOutput (q : List (List ℚ)) (n : Nat) : DrainResult :=
  if q.isEmpty then ⟨List.replicate n 0, [], q⟩
  else
    let r := drainCopyLoop q n
    ⟨r.1 ++ List.replicate (n - r.1.length) 0, r.1, r.2⟩

/-- Operations on the playback queue: `enqueue` is `AudioStreamPlayer.addPCM16`
pushing a resampled block (`this.audioQueue.push(resampled)`), `drain` is one
device-driven invocation of the `onaudioprocess` callback asking for `n`
samples. -/
inductive QueueOp where
  | enqueue (b : List ℚ)
  | drain (n : Nat)
deriving DecidableEq, Repr

/-- Running state of the playback pipeline across a sequence of operations:
the queue, the concatenation of all copied (non-padding) samples emitted so
far, and the list of full output buffers handed to the device. -/
structure PlayerRun where
  queue : List (List ℚ)
  played : List ℚ
  outputs : List (List ℚ)
deriving DecidableEq, Repr

/-- One step of the playback pipeline. -/
def stepQueueOp (s : PlayerRun) : QueueOp → PlayerRun
  | .enqueue b => { s with queue := s.queue ++ [b] }
  | .drain n =>
    let r := drainOutput s.queue n
    { queue := r.queue, played := s.played ++ r.real, outputs := s.outputs ++ [r.output] }

/-- Run a sequence of playback-queue operations from the empty initial state. -/
def runPlayer (ops : List QueueOp) : PlayerRun :=
  ops.foldl stepQueueOp ⟨[], [], []⟩

/-- Concatenation of all blocks enqueued by a sequence of operations. -/
def enqueuedConcat (ops : List QueueOp) : List ℚ :=
  (ops.map fun op => match op with | .enqueue b => b | .drain _ => []).flatten

lemma drainCopyLoop_real (q : List (List ℚ)) (n : Nat) :
    (drainCopyLoop q n).1 = q.flatten.take n := by
  induction q generalizing n with
  | nil => cases n <;> simp [drainCopyLoop]
  | cons b rest ih =>
    cases n with
    | zero => simp [drainCopyLoop]
    | succ m =>
      rw [drainCopyLoop]
      by_cases hb : b.length ≤ m + 1
      · simp only [hb, if_true, List.flatten_cons, List.take_append_eq_append_take, ih,
          List.take_of_length_le hb]
      · simp only [hb, if_false, List.flatten_cons, List.take_append_eq_append_take]
        have : m + 1 - b.length = 0 := by omega
        simp [this, List.take_of_length_le]

lemma drainCopyLoop_queue (q : List (List ℚ)) (n : Nat) :
    (drainCopyLoop q n).2.flatten = q.flatten.drop n := by
  induction q generalizing n with
  | nil => cases n <;> simp [drainCopyLoop]
  | cons b rest ih =>
    cases n with
    | zero => simp [drainCopyLoop]
    | succ m =>
      rw [drainCopyLoop]
      by_cases hb : b.length ≤ m + 1
      · simp only [hb, if_true, List.flatten_cons, List.drop_append_eq_append_drop, ih,
          List.drop_of_length_le hb, List.nil_append]
      · simp only [hb, if_false, List.flatten_cons, List.drop_append_eq_append_drop]
        have : m + 1 - b.length = 0 := by omega
        simp [this]

lemma drainOutput_real (q : List (List ℚ)) (n : Nat) :
    (drainOutput q n).real = q.flatten.take n := by
  unfold drainOutput
  by_cases h : q.isEmpty
  · simp [h, List.isEmpty_iff.mp h]
  · simp [h, drainCopyLoop_real]

lemma drainOutput_queue (q : List (List ℚ)) (n : Nat) :
    (drainOutput q n).queue.flatten = q.flatten.drop n := by
  unfold drainOutput
  by_cases h : q.isEmpty
  · simp [h, List.isEmpty_iff.mp h]
  · simp [h, drainCopyLoop_queue]

lemma drainOutput_output (q : List (List ℚ)) (n : Nat) :
    (drainOutput q n).output =
      (drainOutput q n).real ++ List.replicate (n - (drainOutput q n).real.length) 0 := by
  unfold drainOutput
  by_cases h : q.isEmpty <;> simp [h]

lemma drainOutput_length (q : List (List ℚ)) (n : Nat) :
    (drainOutput q n).output.length = n := by
  have hr : (drainOutput q n).real.length ≤ n := by
    rw [drainOutput_real, List.length_take]; omega
  rw [drainOutput_output, List.length_append, List.length_replicate]
  omega

lemma enqueuedConcat_cons_enqueue (b : List ℚ) (ops : List QueueOp) :
    enqueuedConcat (.enqueue b :: ops) = b ++ enqueuedConcat ops := by
  simp [enqueuedConcat]

lemma enqueuedConcat_cons_drain (n : Nat) (ops : List QueueOp) :
    enqueuedConcat (.drain n :: ops) = enqueuedConcat ops := by
  simp [enqueuedConcat]

lemma runPlayer_conservation (ops : List QueueOp) :
    enqueuedConcat ops = (runPlayer ops).played ++ (runPlayer ops).queue.flatten := by
  suffices h : ∀ (s : PlayerRun),
      s.played ++ s.queue.flatten ++ enqueuedConcat ops =
        (ops.foldl stepQueueOp s).played ++ (ops.foldl stepQueueOp s).queue.flatten by
    have := h ⟨[], [], []⟩
    simpa [runPlayer] using this
  induction ops with
  | nil => intro s; simp [enqueuedConcat]
  | cons op rest ih =>
    intro s
    rw [List.foldl_cons]
    rw [← ih (stepQueueOp s op)]
    cases op with
    | enqueue b =>
      rw [enqueuedConcat_cons_enqueue]
      simp [stepQueueOp, List.flatten_append, List.append_assoc]
    | drain n =>
      rw [enqueuedConcat_cons_drain]
      have hqd : (drainOutput s.queue n).real ++ (drainOutput s.queue n).queue.flatten
          = s.queue.flatten := by
        rw [drainOutput_real, drainOutput_queue, List.take_append_drop]
      simp only [stepQueueOp]
      conv_rhs => rw [List.append_assoc s.played, hqd]

/-- C4: across any sequence of enqueues and drain-callback invocations, the
concatenation of all enqueued blocks equals the concatenation of the copied
(non-silence-padding) samples the drain callback has emitted, followed by what
still sits in the queue — so no sample is played twice, skipped, or reordered;
each drain's full output buffer is exactly its copied region followed by
zero-padding and has exactly the requested length; the copied region is
exactly the next `n` samples of the flattened queue and the remaining queue
holds exactly the rest; and a partially consumed head block retains exactly
its remaining suffix. -/
theorem playback_drain_exact (ops : List QueueOp) :
    (enqueuedConcat ops = (runPlayer ops).played ++ (runPlayer ops).queue.flatten)
    ∧ (∀ (q : List (List ℚ)) (n : Nat),
        (drainOutput q n).output =
          (drainOutput q n).real ++ List.replicate (n - (drainOutput q n).real.length) 0
        ∧ (drainOutput q n).output.length = n
        ∧ (drainOutput q n).real = q.flatten.take n
        ∧ (drainOutput q n).queue.flatten = q.flatten.drop n)
    ∧ (∀ (b : List ℚ) (rest : List (List ℚ)) (n : Nat), 0 < n → n < b.length →
        drainOutput (b :: rest) n = ⟨b.take n, b.take n, b.drop n :: rest⟩) := by
  refine ⟨runPlayer_conservation ops, fun q n =>
    ⟨drainOutput_output q n, drainOutput_length q n, drainOutput_real q n,
      drainOutput_queue q n⟩, fun b rest n hn hb => ?_⟩
  obtain ⟨m, rfl⟩ : ∃ m, n = m + 1 := ⟨n - 1, by omega⟩
  have hble : ¬ b.length ≤ m + 1 := by omega
  have hcopy : drainCopyLoop (b :: rest) (m + 1) = (b.take (m + 1), b.drop (m + 1) :: rest) := by
    rw [drainCopyLoop]; simp [hble]
  have htk : (b.take (m + 1)).length = m + 1 := by
    rw [List.length_take]; omega
  simp [drainOutput, hcopy, htk]

/-- C4 witness: the spec's own example — a block of length 100 enqueued, then
two drain requests of 60 samples: the first returns samples [0:60) of the
block, the second the remaining [60:100) plus 40 samples of silence. -/
theorem playback_drain_exact_witness :
    (0 < 60 ∧ 60 < (List.replicate 100 (1 : ℚ)).length) ∧
    drainOutput [List.replicate 100 (1 : ℚ)] 60 =
      ⟨List.replicate 60 1, List.replicate 60 1, [List.replicate 40 1]⟩ := by
  have h := (playback_drain_exact []).2.2 (List.replicate 100 (1 : ℚ)) [] 60
    (by omega) (by simp)
  refine ⟨⟨by omega, by simp⟩, ?_⟩
  rw [h]
  simp [List.take_replicate, List.drop_replicate]

/-! ## Resamplers -/

/-- JavaScript `Math.round` on the nonnegative rationals used by the code:
`Math.round(x) = Math.floor(x + 0.5)`. -/
def jsRound (x : ℚ) : ℕ := ⌊x + 1 / 2⌋₊

/-- The body of the outer `while (offsetResult < result.length)` loop of
`downsampleBuffer` in `chatRepository.startLiveSession`'s capture path,
rendered with the number of remaining iterations
(`result.length - offsetResult`) as the structural argument:

      while (offsetResult < result.length) {
          const nextOffsetBuffer = Math.round((offsetResult + 1) * sampleRateRatio);
          let accum = 0, count = 0;
          for (let i = offsetBuffer; i < nextOffsetBuffer && i < buffer.length; i++) {
              accum += buffer[i]; count++;
          }
          result[offsetResult] = count > 0 ? accum / count : 0;
          offsetResult++; offsetBuffer = nextOffsetBuffer;
      }

The inner `for` visits the indices `List.range' offsetBuffer
(min nextOffsetBuffer buffer.length - offsetBuffer)`. -/
def downsampleLoop (buffer : List ℚ) (sampleRateRatio : ℚ) :
    ℕ → ℕ → ℕ → List ℚ
  | 0, _, _ => []
  | remaining + 1, offsetResult, offsetBuffer =>
    let nextOffsetBuffer := jsRound ((offsetResult + 1 : ℚ) * sampleRateRatio)
    let idxs := List.range' offsetBuffer (min nextOffsetBuffer buffer.length - offsetBuffer)
    let accum := (idxs.map fun i => buffer.getD i 0).sum
    let count := idxs.length
    (if 0 < count then accum / count else 0) ::
      downsampleLoop buffer sampleRateRatio remaining (offsetResult + 1) nextOffsetBuffer

/-- The function `downsampleBuffer(buffer, sampleRate, outSampleRate)` of
`chatRepository` (capture path, averaging decimator):
equal rates and `outSampleRate > sampleRate` both return the input buffer;
otherwise `sampleRateRatio = sampleRate / outSampleRate`,
`newLength = Math.round(buffer.length / sampleRateRatio)`, then the averaging
loop starting at `offsetResult = 0`, `offsetBuffer = 0`. -/
def downsampleBuffer (buffer : List ℚ) (sampleRate outSampleRate : ℕ) : List ℚ :=
  if outSampleRate = sampleRate then buffer
  else if sampleRate < outSampleRate then buffer
  else
    let sampleRateRatio : ℚ := (sampleRate : ℚ) / (outSampleRate : ℚ)
    let newLength := jsRound ((buffer.length : ℚ) / sampleRateRatio)
    downsampleLoop buffer sampleRateRatio newLength 0 0

/-- The playback source rate: Gemini sends 24 kHz
(`AudioStreamPlayer.sourceRate`). -/
def sourceRate : ℕ := 24000

/-- The method `AudioStreamPlayer.resampleToNative(inputChunk)` for a device context at
`targetRate`: identity when `targetRate === this.sourceRate`; otherwise
`ratio = sourceRate / targetRate`, `newLength = Math.round(length / ratio)`,
and each output sample `i` is the linear interpolation between
`inputChunk[index1]` and `inputChunk[index2]` with
`index1 = Math.floor(i * ratio)`,
`index2 = Math.min(index1 + 1, inputChunk.length - 1)`,
`weight = i * ratio - index1`. -/
def resampleToNative (inputChunk : List ℚ) (targetRate : ℕ) : List ℚ :=
  if targetRate = sourceRate then inputChunk
  else
    let ratio : ℚ := (sourceRate : ℚ) / (targetRate : ℚ)
    let newLength := jsRound ((inputChunk.length : ℚ) / ratio)
    (List.range newLength).map fun (i : ℕ) =>
      let originalIndex : ℚ := (i : ℚ) * ratio
      let index1 := ⌊originalIndex⌋₊
      let index2 := min (index1 + 1) (inputChunk.length - 1)
      let weight : ℚ := originalIndex - (index1 : ℚ)
      inputChunk.getD index1 0 * (1 - weight) + inputChunk.getD index2 0 * weight

/-- C8: resampling at equal rates is the identity, on the playback-path
resampler (`resampleToNative` with the device at the 24 kHz source rate) and
on the capture-path resampler (`downsampleBuffer` with equal source and
target rates), for every block. -/
theorem resample_identity_equal_rates :
    (∀ chunk : List ℚ, resampleToNative chunk sourceRate = chunk)
    ∧ (∀ (buffer : List ℚ) (r : ℕ), downsampleBuffer buffer r r = buffer) := by
  constructor
  · intro chunk; simp [resampleToNative]
  · intro buffer r; simp [downsampleBuffer]

/-- C6 counterexample: the claim says `downsampleBuffer` with
`outSampleRate > sampleRate` "does not simply return the input unchanged" —
but on the concrete buffer `[1, 1/2, -1/4]` with source 8 kHz and target
16 kHz the code returns exactly the input (silent pass-through, no error
signalled). -/
theorem downsample_upsampling_passthrough_counterexample :
    downsampleBuffer [1, 1 / 2, -(1 / 4)] 8000 16000 = [1, 1 / 2, -(1 / 4)] := by
  norm_num [downsampleBuffer]

/-- C6 amended: requesting upsampling on the capture path
(`outSampleRate > sampleRate`) returns the input buffer unchanged — a silent
pass-through, with no error value or exception signalled to the caller. -/
theorem downsample_upsampling_passthrough (buffer : List ℚ)
    (sampleRate outSampleRate : ℕ) (h : sampleRate < outSampleRate) :
    downsampleBuffer buffer sampleRate outSampleRate = buffer := by
  have hne : outSampleRate ≠ sampleRate := by omega
  simp [downsampleBuffer, hne, h]

/-- C6 amended witness: upsampling request 16 kHz → 24 kHz passes the buffer
through unchanged. -/
theorem downsample_upsampling_passthrough_witness :
    16000 < 24000 ∧ downsampleBuffer [3, 7] 16000 24000 = [3, 7] :=
  ⟨by omega, downsample_upsampling_passthrough [3, 7] 16000 24000 (by omega)⟩

/-- Closed form of output sample `j` of the averaging loop: the mean of the
source samples in the span `[jsRound (j * ratio), min (jsRound ((j+1) * ratio))
buffer.length)` if nonempty, else `0`. -/
def downsampleElt (buffer : List ℚ) (ratio : ℚ) (j : ℕ) : ℚ :=
  let start := jsRound ((j : ℚ) * ratio)
  let stop := min (jsRound (((j : ℚ) + 1) * ratio)) buffer.length
  let idxs := List.range' start (stop - start)
  if 0 < idxs.length then (idxs.map fun i => buffer.getD i 0).sum / (idxs.length : ℚ) else 0

lemma downsampleLoop_length (buffer : List ℚ) (ratio : ℚ) (rem o ob : ℕ) :
    (downsampleLoop buffer ratio rem o ob).length = rem := by
  induction rem generalizing o ob with
  | zero => simp [downsampleLoop]
  | succ r ih => simp [downsampleLoop, ih]

lemma downsampleLoop_get (buffer : List ℚ) (ratio : ℚ) :
    ∀ (k rem o : ℕ), k < rem →
      (downsampleLoop buffer ratio rem o (jsRound ((o : ℚ) * ratio))).get? k
        = some (downsampleElt buffer ratio (o + k)) := by
  intro k
  induction k with
  | zero =>
    intro rem o hk
    obtain ⟨r, rfl⟩ : ∃ r, rem = r + 1 := ⟨rem - 1, by omega⟩
    simp [downsampleLoop, downsampleElt]
  | succ k ih =>
    intro rem o hk
    obtain ⟨r, rfl⟩ : ∃ r, rem = r + 1 := ⟨rem - 1, by omega⟩
    have hcast : ((o : ℚ) + 1) = ((o + 1 : ℕ) : ℚ) := by push_cast; ring
    have : (downsampleLoop buffer ratio (r + 1) o (jsRound ((o : ℚ) * ratio))).get? (k + 1)
        = (downsampleLoop buffer ratio r (o + 1) (jsRound (((o : ℚ) + 1) * ratio))).get? k := by
      simp [downsampleLoop]
    rw [this, hcast, ih r (o + 1) (by omega)]
    rw [show o + (k + 1) = o + 1 + k from by omega]

lemma jsRound_step (ratio : ℚ) (hratio : 1 < ratio) (j : ℕ) :
    jsRound ((j : ℚ) * ratio) + 1 ≤ jsRound (((j : ℚ) + 1) * ratio) := by
  unfold jsRound
  have h0 : (0 : ℚ) ≤ (j : ℚ) * ratio + 1 / 2 := by positivity
  have h1 : (j : ℚ) * ratio + 1 / 2 + 1 ≤ ((j : ℚ) + 1) * ratio + 1 / 2 := by nlinarith
  calc ⌊(j : ℚ) * ratio + 1 / 2⌋₊ + 1 = ⌊(j : ℚ) * ratio + 1 / 2 + 1⌋₊ :=
        (Nat.floor_add_one h0).symm
    _ ≤ ⌊((j : ℚ) + 1) * ratio + 1 / 2⌋₊ := Nat.floor_le_floor h1

lemma jsRound_lt_length (len : ℕ) (ratio : ℚ) (hratio : 1 < ratio) (j : ℕ)
    (hj : j < jsRound ((len : ℚ) / ratio)) :
    jsRound ((j : ℚ) * ratio) < len := by
  unfold jsRound at hj ⊢
  have hr0 : (0 : ℚ) < ratio := by linarith
  have hfl : ((j : ℚ) + 1) ≤ (len : ℚ) / ratio + 1 / 2 := by
    have h1 : j + 1 ≤ ⌊(len : ℚ) / ratio + 1 / 2⌋₊ := hj
    have h2 : ((j + 1 : ℕ) : ℚ) ≤ (⌊(len : ℚ) / ratio + 1 / 2⌋₊ : ℚ) := by exact_mod_cast h1
    have h3 : (⌊(len : ℚ) / ratio + 1 / 2⌋₊ : ℚ) ≤ (len : ℚ) / ratio + 1 / 2 :=
      Nat.floor_le (by positivity)
    calc ((j : ℚ) + 1) = ((j + 1 : ℕ) : ℚ) := by push_cast; ring
      _ ≤ _ := h2.trans h3
  have hlt : (j : ℚ) * ratio + 1 / 2 < (len : ℚ) := by
    have hmul : ((j : ℚ) + 1) * ratio ≤ ((len : ℚ) / ratio + 1 / 2) * ratio :=
      mul_le_mul_of_nonneg_right hfl (le_of_lt hr0)
    rw [div_add' _ _ _ (ne_of_gt hr0), div_mul_eq_mul_div, mul_comm, mul_div_assoc,
      div_self (ne_of_gt hr0), mul_one] at hmul
    nlinarith
  exact (Nat.floor_lt (by positivity)).mpr hlt

/-- C7: for every input buffer and every valid downsampling rate pair
(`0 < outSampleRate < sampleRate`), every output sample of the capture-path
resampler `downsampleBuffer` equals the arithmetic mean — sum divided by
count — of all source samples falling in that output sample's input span
`[round(k·ratio), min(round((k+1)·ratio), buffer.length))`, and that span is
never empty (so the `count = 0` fallback of the code is never taken). -/
theorem downsample_box_filter (buffer : List ℚ) (sampleRate outSampleRate : ℕ)
    (h0 : 0 < outSampleRate) (h1 : outSampleRate < sampleRate) (k : ℕ)
    (hk : k < (downsampleBuffer buffer sampleRate outSampleRate).length) :
    jsRound ((k : ℚ) * ((sampleRate : ℚ) / (outSampleRate : ℚ))) <
      min (jsRound (((k : ℚ) + 1) * ((sampleRate : ℚ) / (outSampleRate : ℚ)))) buffer.length
    ∧ (downsampleBuffer buffer sampleRate outSampleRate).get? k =
      some (let start := jsRound ((k : ℚ) * ((sampleRate : ℚ) / (outSampleRate : ℚ)))
        let stop := min (jsRound (((k : ℚ) + 1) * ((sampleRate : ℚ) / (outSampleRate : ℚ))))
          buffer.length
        ((List.range' start (stop - start)).map fun i => buffer.getD i 0).sum
          / ((stop - start : ℕ) : ℚ)) := by
  have hne : outSampleRate ≠ sampleRate := by omega
  have hnlt : ¬ sampleRate < outSampleRate := by omega
  have hunfold : downsampleBuffer buffer sampleRate outSampleRate =
      downsampleLoop buffer ((sampleRate : ℚ) / (outSampleRate : ℚ))
        (jsRound ((buffer.length : ℚ) / ((sampleRate : ℚ) / (outSampleRate : ℚ)))) 0 0 := by
    simp [downsampleBuffer, hne, hnlt]
  set ratio : ℚ := (sampleRate : ℚ) / (outSampleRate : ℚ) with hratio_def
  have hratio : 1 < ratio := by
    rw [hratio_def, one_lt_div (by exact_mod_cast h0)]
    exact_mod_cast h1
  rw [hunfold] at hk
  rw [downsampleLoop_length] at hk
  have hzero : jsRound (((0 : ℕ) : ℚ) * ratio) = 0 := by
    norm_num [jsRound]
  have hget := downsampleLoop_get buffer ratio k
    (jsRound ((buffer.length : ℚ) / ratio)) 0 hk
  rw [hzero] at hget
  have hspan : jsRound ((k : ℚ) * ratio) <
      min (jsRound (((k : ℚ) + 1) * ratio)) buffer.length := by
    have hs := jsRound_step ratio hratio k
    have hl := jsRound_lt_length buffer.length ratio hratio k hk
    omega
  refine ⟨hspan, ?_⟩
  rw [hunfold, hget]
  have hlen : (List.range' (jsRound ((k : ℚ) * ratio))
      (min (jsRound (((k : ℚ) + 1) * ratio)) buffer.length
        - jsRound ((k : ℚ) * ratio))).length
      = min (jsRound (((k : ℚ) + 1) * ratio)) buffer.length
        - jsRound ((k : ℚ) * ratio) := List.length_range' ..
  have hpos : 0 < min (jsRound (((k : ℚ) + 1) * ratio)) buffer.length
      - jsRound ((k : ℚ) * ratio) := by omega
  simp only [downsampleElt, Nat.zero_add, hlen, hpos, if_true]

/-- C7 witness: buffer `[1, 3]` downsampled from 48 kHz to 16 kHz (ratio 3)
produces one output sample, the mean `(1 + 3) / 2 = 2` of the whole span. -/
theorem downsample_box_filter_witness :
    ((0 : ℕ) < 16000 ∧ 16000 < 48000
      ∧ (0 : ℕ) < (downsampleBuffer [1, 3] 48000 16000).length)
    ∧ (downsampleBuffer [1, 3] 48000 16000).get? 0 = some 2 := by
  have hlen : (downsampleBuffer [1, 3] 48000 16000).length = 1 := by
    norm_num [downsampleBuffer, jsRound, downsampleLoop_length, Nat.floor_eq_iff]
  have h := (downsample_box_filter [1, 3] 48000 16000 (by omega) (by omega) 0
    (by omega)).2
  refine ⟨⟨by omega, by omega, by omega⟩, ?_⟩
  rw [h]
  have hf1 : ⌊(1 / 2 : ℚ)⌋₊ = 0 := by norm_num
  have hf2 : ⌊(7 / 2 : ℚ)⌋₊ = 3 := by norm_num [Nat.floor_eq_iff]
  norm_num [jsRound, hf1, hf2, List.range']

lemma mul_ratio_lt_length (len : ℕ) (ratio : ℚ) (hr : 0 < ratio) (i : ℕ)
    (hi : i < jsRound ((len : ℚ) / ratio)) : (i : ℚ) * ratio < (len : ℚ) := by
  unfold jsRound at hi
  have hfl : ((i : ℚ) + 1) ≤ (len : ℚ) / ratio + 1 / 2 := by
    have h2 : ((i + 1 : ℕ) : ℚ) ≤ (⌊(len : ℚ) / ratio + 1 / 2⌋₊ : ℚ) := by
      exact_mod_cast Nat.succ_le_of_lt hi
    have h3 : (⌊(len : ℚ) / ratio + 1 / 2⌋₊ : ℚ) ≤ (len : ℚ) / ratio + 1 / 2 :=
      Nat.floor_le (by positivity)
    calc ((i : ℚ) + 1) = ((i + 1 : ℕ) : ℚ) := by push_cast; ring
      _ ≤ _ := h2.trans h3
  have hmul : ((i : ℚ) + 1) * ratio ≤ ((len : ℚ) / ratio + 1 / 2) * ratio :=
    mul_le_mul_of_nonneg_right hfl (le_of_lt hr)
  have hkey : ((len : ℚ) / ratio + 1 / 2) * ratio = (len : ℚ) + 1 / 2 * ratio := by
    rw [add_mul, div_mul_cancel₀ _ (ne_of_gt hr)]
  rw [hkey, add_mul] at hmul
  nlinarith

/-- The length of `resampleToNative` output at a rate different from the
source rate is `Math.round(inputChunk.length / ratio)`. -/
lemma resampleToNative_length (chunk : List ℚ) (targetRate : ℕ)
    (hne : targetRate ≠ sourceRate) :
    (resampleToNative chunk targetRate).length =
      jsRound ((chunk.length : ℚ) / ((sourceRate : ℚ) / (targetRate : ℚ))) := by
  rw [resampleToNative, if_neg hne]
  simp only [List.length_map, List.length_range]

/-- C9: on the playback path, for every nonempty input chunk and every target
rate strictly above the 24 kHz source rate, every output sample of
`resampleToNative` reads only in-bounds indices: `index1 = ⌊i·ratio⌋` and
`index2 = min (index1 + 1) (length - 1)` both lie below the input length (the
upper index is clamped to `length - 1`), and the sample is exactly the linear
interpolation of the two source samples at those indices. -/
theorem resample_upsample_in_bounds (chunk : List ℚ) (targetRate : ℕ)
    (hne : chunk ≠ []) (ht : sourceRate < targetRate) (i : ℕ)
    (hi : i < (resampleToNative chunk targetRate).length) :
    ⌊(i : ℚ) * ((sourceRate : ℚ) / (targetRate : ℚ))⌋₊ < chunk.length
    ∧ min (⌊(i : ℚ) * ((sourceRate : ℚ) / (targetRate : ℚ))⌋₊ + 1) (chunk.length - 1)
        < chunk.length
    ∧ (resampleToNative chunk targetRate).get? i =
      some (chunk.getD ⌊(i : ℚ) * ((sourceRate : ℚ) / (targetRate : ℚ))⌋₊ 0
          * (1 - ((i : ℚ) * ((sourceRate : ℚ) / (targetRate : ℚ))
              - (⌊(i : ℚ) * ((sourceRate : ℚ) / (targetRate : ℚ))⌋₊ : ℚ)))
        + chunk.getD (min (⌊(i : ℚ) * ((sourceRate : ℚ) / (targetRate : ℚ))⌋₊ + 1)
            (chunk.length - 1)) 0
          * ((i : ℚ) * ((sourceRate : ℚ) / (targetRate : ℚ))
              - (⌊(i : ℚ) * ((sourceRate : ℚ) / (targetRate : ℚ))⌋₊ : ℚ))) := by
  have hs : (0 : ℕ) < sourceRate := by norm_num [sourceRate]
  have hrt : targetRate ≠ sourceRate := by omega
  have hr : (0 : ℚ) < (sourceRate : ℚ) / (targetRate : ℚ) := by
    have h1 : (0 : ℚ) < (sourceRate : ℚ) := by exact_mod_cast hs
    have h2 : (0 : ℚ) < (targetRate : ℚ) := by exact_mod_cast Nat.lt_trans hs ht
    positivity
  rw [resampleToNative_length chunk targetRate hrt] at hi
  have hlen0 : 0 < chunk.length := List.length_pos.mpr hne
  have hmlt : (i : ℚ) * ((sourceRate : ℚ) / (targetRate : ℚ)) < (chunk.length : ℚ) :=
    mul_ratio_lt_length chunk.length _ hr i hi
  have hidx1 : ⌊(i : ℚ) * ((sourceRate : ℚ) / (targetRate : ℚ))⌋₊ < chunk.length := by
    have := (Nat.floor_lt (by positivity)).mpr hmlt
    exact_mod_cast this
  have hidx2 : min (⌊(i : ℚ) * ((sourceRate : ℚ) / (targetRate : ℚ))⌋₊ + 1)
      (chunk.length - 1) < chunk.length := by omega
  refine ⟨hidx1, hidx2, ?_⟩
  rw [resampleToNative, if_neg hrt]
  rw [List.get?_map, List.get?_range hi]
  rfl

/-- C9 witness: chunk `[1, 2]` upsampled from 24 kHz to 48 kHz; output sample
3 interpolates indices 1 and `min 2 1 = 1` (clamped to length − 1) and equals
2. -/
theorem resample_upsample_in_bounds_witness :
    (([1, 2] : List ℚ) ≠ [] ∧ sourceRate < 48000
      ∧ 3 < (resampleToNative [1, 2] 48000).length)
    ∧ (resampleToNative [1, 2] 48000).get? 3 = some 2 := by
  have hne : (([1, 2] : List ℚ)) ≠ [] := by simp
  have ht : sourceRate < 48000 := by norm_num [sourceRate]
  have hlen : (resampleToNative ([1, 2] : List ℚ) 48000).length = 4 := by
    rw [resampleToNative_length _ _ (by norm_num [sourceRate])]
    norm_num [sourceRate, jsRound, Nat.floor_eq_iff]
  have h := (resample_upsample_in_bounds [1, 2] 48000 hne ht 3 (by omega)).2.2
  refine ⟨⟨hne, ht, by omega⟩, ?_⟩
  rw [h]
  have hf : ⌊(((3 : ℕ) : ℚ)) * (((sourceRate : ℕ) : ℚ) / (((48000 : ℕ)) : ℚ))⌋₊ = 1 := by
    norm_num [sourceRate, Nat.floor_eq_iff]
  rw [hf]
  norm_num [sourceRate, List.getD]

/-! ## PCM16 encoding (createBlob, in chatRepository.ts) -/

/-- JavaScript number-to-integer conversion step of `ToInt16`: truncation
toward zero. -/
def jsTrunc (q : ℚ) : ℤ := if 0 ≤ q then ⌊q⌋ else ⌈q⌉

/-- The `Int16Array` element assignment `int16[i] = v` of JavaScript
(`ToInt16`): truncate toward zero, wrap modulo 2^16, and map the result into
the signed range `[-32768, 32768)`. -/
def toInt16 (q : ℚ) : ℤ :=
  let wrapped := jsTrunc q % 65536
  if 32768 ≤ wrapped then wrapped - 65536 else wrapped

/-- The function `createBlob(data)` of `chatRepository.ts` (both copies are identical):
`int16[i] = data[i] * 32768` for each sample.  Only the sample values are
modelled; the subsequent base64 encoding of the little-endian bytes carries
the same values. -/
def createBlob (data : List ℚ) : List ℤ :=
  data.map fun s => toInt16 (s * 32768)

lemma toInt16_bounds (q : ℚ) : -32768 ≤ toInt16 q ∧ toInt16 q < 32768 := by
  unfold toInt16
  have h0 : 0 ≤ jsTrunc q % 65536 := Int.emod_nonneg _ (by norm_num)
  have h1 : jsTrunc q % 65536 < 65536 := Int.emod_lt_of_pos _ (by norm_num)
  dsimp only
  split <;> omega

lemma toInt16_modeq (q : ℚ) : toInt16 q ≡ jsTrunc q [ZMOD 65536] := by
  unfold toInt16 Int.ModEq
  dsimp only
  split <;> omega

/-! ## Session state machine, capture gating and transport handlers
(chatRepository.startLiveSession / setupAudioInput) -/

/-- The `LiveConnectionState` enumeration of src/types.ts. -/
inductive LiveConnectionState where
  | disconnected
  | connecting
  | connected
  | error
deriving DecidableEq, Repr

/-- A transport close event: `event?.code` and `event?.reason` may each be
absent. -/
structure TransportCloseEvent where
  code : Option ℕ
  reason : Option String
deriving DecidableEq, Repr

/-- Events driving a live session after `startLiveSession` has emitted
`CONNECTING`: the transport `onopen` callback, an inbound message carrying
`setupComplete`, one firing of the capture `onaudioprocess` callback with a
block at the input context's rate, the transport `onclose` callback, and the
transport `onerror` callback. -/
inductive SessionEvent where
  | transportOpen
  | msgSetupComplete
  | captureBlock (block : List ℚ) (rate : ℕ)
  | transportClose (ev : TransportCloseEvent)
  | transportError (msg : String)
deriving DecidableEq, Repr

/-- Observable repository state: the last state passed to `onStateChange`,
the `setupComplete` flag, the audio frames passed to
`session.sendRealtimeInput`, and the messages passed to `onError`. -/
structure RepoState where
  reportedState : LiveConnectionState
  setupComplete : Bool
  sentFrames : List (List ℤ)
  errors : List String
deriving DecidableEq, Repr

/-- Processing of one capture block inside `setupAudioInput`'s
`onaudioprocess`: downsample to 16 kHz when the context rate differs
(else clone), then `createBlob`. -/
def captureFrame (block : List ℚ) (currentRate : ℕ) : List ℤ :=
  createBlob (if currentRate ≠ 16000 then downsampleBuffer block currentRate 16000 else block)

/-- JavaScript `a || d` for a possibly-absent string: an absent or empty
string is falsy and yields the default. -/
def jsOrString : Option String → String → String
  | some s, d => if s = "" then d else s
  | none, d => d

/-- The `onError` messages emitted by the `onclose` callback:
`if (event?.code && event.code !== 1000)` — JavaScript truthiness makes an
absent or zero code emit nothing — the message is
`Connection closed: ${event?.reason || 'Unknown reason'} (code: ${event?.code})`,
where an absent or empty reason string is falsy and is replaced by
`Unknown reason`. -/
def closeErrors (ev : TransportCloseEvent) : List String :=
  match ev.code with
  | some c =>
    if c ≠ 0 ∧ c ≠ 1000 then
      ["Connection closed: " ++ jsOrString ev.reason "Unknown reason"
        ++ " (code: " ++ toString c ++ ")"]
    else []
  | none => []

/-- One step of the live-session machine, following the callbacks of
`startLiveSession` and the guard in `setupAudioInput`:
`onopen` reports `CONNECTED`; a `setupComplete` message only sets the flag;
the capture callback returns without sending (and without queuing) when
`setupComplete` is false, else sends one processed frame (the
`!this.sessionPromise` guard is satisfied for the active session modelled
here); `onclose` reports `DISCONNECTED` and surfaces a cause for an abnormal
nonzero code; `onerror` reports `ERROR` and surfaces a cause. -/
def stepSession (s : RepoState) : SessionEvent → RepoState
  | .transportOpen => { s with reportedState := .connected }
  | .msgSetupComplete => { s with setupComplete := true }
  | .captureBlock b r =>
    if s.setupComplete then { s with sentFrames := s.sentFrames ++ [captureFrame b r] }
    else s
  | .transportClose ev =>
    { s with reportedState := .disconnected, errors := s.errors ++ closeErrors ev }
  | .transportError m =>
    { s with reportedState := .error, errors := s.errors ++ ["Connection error: " ++ m] }

/-- State at the start of a session: `startLiveSession` has just emitted
`CONNECTING`; nothing sent, no flag, no errors. -/
def initSession : RepoState := ⟨.connecting, false, [], []⟩

/-- Run a session trace from the initial state. -/
def runSession (events : List SessionEvent) : RepoState :=
  events.foldl stepSession initSession

lemma setupComplete_stays_false (tr : List SessionEvent) :
    ∀ s : RepoState, s.setupComplete = false →
      (∀ e ∈ tr, e ≠ SessionEvent.msgSetupComplete) →
      ((tr.foldl stepSession s).setupComplete = false
        ∧ (tr.foldl stepSession s).sentFrames = s.sentFrames) := by
  induction tr with
  | nil => intro s hs _; exact ⟨hs, rfl⟩
  | cons e rest ih =>
    intro s hs hall
    have he : e ≠ SessionEvent.msgSetupComplete := hall e (by simp)
    have hrest : ∀ x ∈ rest, x ≠ SessionEvent.msgSetupComplete :=
      fun x hx => hall x (by simp [hx])
    rw [List.foldl_cons]
    have hstep : (stepSession s e).setupComplete = false
        ∧ (stepSession s e).sentFrames = s.sentFrames := by
      cases e with
      | transportOpen => exact ⟨hs, rfl⟩
      | msgSetupComplete => exact absurd rfl he
      | captureBlock b r => simp [stepSession, hs]
      | transportClose ev => exact ⟨hs, rfl⟩
      | transportError m => exact ⟨hs, rfl⟩
    obtain ⟨h1, h2⟩ := ih (stepSession s e) hstep.1 hrest
    exact ⟨h1, h2.trans hstep.2⟩

/-- C1 counterexample: the transport-open callback alone already reports
`Connected` although no setup-complete acknowledgement has been received
(the `setupComplete` flag is still false) — the session does not stay in
`Connecting` until setup-complete. -/
theorem connected_before_setup_counterexample :
    (runSession [SessionEvent.transportOpen]).reportedState = LiveConnectionState.connected
    ∧ (runSession [SessionEvent.transportOpen]).setupComplete = false := by
  constructor <;> rfl

/-- C1 amended: the session reports `Connected` immediately when the
transport opens — even on a trace in which no setup-complete message was ever
received (the `setupComplete` flag is still false at that point) — and
receiving the setup-complete message never changes the reported state; it
only sets the internal `setupComplete` flag. -/
theorem connected_on_open_before_setup (tr : List SessionEvent)
    (hnosetup : ∀ e ∈ tr, e ≠ SessionEvent.msgSetupComplete) :
    (runSession (tr ++ [SessionEvent.transportOpen])).reportedState
        = LiveConnectionState.connected
    ∧ (runSession (tr ++ [SessionEvent.transportOpen])).setupComplete = false
    ∧ (∀ s : RepoState, (stepSession s SessionEvent.msgSetupComplete).reportedState
        = s.reportedState
        ∧ (stepSession s SessionEvent.msgSetupComplete).setupComplete = true) := by
  have hfold : runSession (tr ++ [SessionEvent.transportOpen])
      = stepSession (runSession tr) SessionEvent.transportOpen := by
    unfold runSession
    rw [List.foldl_append, List.foldl_cons, List.foldl_nil]
  refine ⟨?_, ?_, fun s => ⟨rfl, rfl⟩⟩
  · rw [hfold]; rfl
  · rw [hfold]
    have h := (setupComplete_stays_false tr initSession rfl hnosetup).1
    unfold runSession
    simpa [stepSession] using h

/-- C1 amended witness: the singleton trace `[transportOpen]` with no prior
events. -/
theorem connected_on_open_before_setup_witness :
    (∀ e ∈ ([] : List SessionEvent), e ≠ SessionEvent.msgSetupComplete)
    ∧ (runSession [SessionEvent.transportOpen]).reportedState
        = LiveConnectionState.connected
    ∧ (runSession [SessionEvent.transportOpen]).setupComplete = false := by
  have h := connected_on_open_before_setup [] (by simp)
  exact ⟨by simp, by simpa using h.1, by simpa using h.2.1⟩

/-- C2: on every capture-pipeline trace that contains no setup-complete
message, the list of frames sent on the transport is empty (frame count 0),
and a capture callback that fires while `setupComplete` is false leaves the
whole state unchanged — its block is neither sent nor queued anywhere. -/
theorem no_frames_before_setup (tr : List SessionEvent)
    (hnosetup : ∀ e ∈ tr, e ≠ SessionEvent.msgSetupComplete) :
    (runSession tr).sentFrames = []
    ∧ (∀ (s : RepoState) (b : List ℚ) (r : ℕ), s.setupComplete = false →
        stepSession s (SessionEvent.captureBlock b r) = s) := by
  constructor
  · exact (setupComplete_stays_false tr initSession rfl hnosetup).2
  · intro s b r hs
    simp [stepSession, hs]

/-- C2 witness: a trace in which the transport opens and a capture block
fires before any setup-complete: nothing is sent, and the early capture
callback is a no-op on the state. -/
theorem no_frames_before_setup_witness :
    (∀ e ∈ [SessionEvent.transportOpen, SessionEvent.captureBlock [1] 48000],
        e ≠ SessionEvent.msgSetupComplete)
    ∧ (runSession [SessionEvent.transportOpen,
        SessionEvent.captureBlock [1] 48000]).sentFrames = []
    ∧ stepSession initSession (SessionEvent.captureBlock [1] 48000) = initSession := by
  have h := no_frames_before_setup
    [SessionEvent.transportOpen, SessionEvent.captureBlock [1] 48000] (by simp)
  exact ⟨by simp, h.1, h.2 initSession [1] 48000 rfl⟩

/-- C3 counterexample: an abnormal transport close (code 1006) transitions
the session to `Disconnected`, not to `Error` as the claim states (a
human-readable cause is surfaced, but the reported state is wrong for the
claim). -/
theorem abnormal_close_state_counterexample :
    (runSession [SessionEvent.transportOpen,
        SessionEvent.transportClose ⟨some 1006, some "abnormal closure"⟩]).reportedState
      = LiveConnectionState.disconnected
    ∧ (runSession [SessionEvent.transportOpen,
        SessionEvent.transportClose ⟨some 1006, some "abnormal closure"⟩]).reportedState
      ≠ LiveConnectionState.error := by
  constructor
  · rfl
  · intro h
    simp [runSession, stepSession] at h

/-- C3 amended: a transport close always transitions to `Disconnected`
(never `Error`), and when the close code is present, nonzero and not the
normal closure code 1000 a human-readable cause is surfaced via `onError`
(an absent or empty reason string is falsy in JavaScript and is replaced by
`Unknown reason`); a transport error transitions to `Error` and surfaces a
human-readable cause. -/
theorem close_and_error_transitions (tr : List SessionEvent)
    (ev : TransportCloseEvent) (c : ℕ) (m : String)
    (hc : ev.code = some c) (hc0 : c ≠ 0) (hc1000 : c ≠ 1000) :
    (runSession (tr ++ [SessionEvent.transportClose ev])).reportedState
        = LiveConnectionState.disconnected
    ∧ (runSession (tr ++ [SessionEvent.transportClose ev])).errors
        = (runSession tr).errors
          ++ ["Connection closed: " ++ jsOrString ev.reason "Unknown reason"
              ++ " (code: " ++ toString c ++ ")"]
    ∧ (runSession (tr ++ [SessionEvent.transportError m])).reportedState
        = LiveConnectionState.error
    ∧ (runSession (tr ++ [SessionEvent.transportError m])).errors
        = (runSession tr).errors ++ ["Connection error: " ++ m] := by
  have hfold1 : runSession (tr ++ [SessionEvent.transportClose ev])
      = stepSession (runSession tr) (SessionEvent.transportClose ev) := by
    unfold runSession
    rw [List.foldl_append, List.foldl_cons, List.foldl_nil]
  have hfold2 : runSession (tr ++ [SessionEvent.transportError m])
      = stepSession (runSession tr) (SessionEvent.transportError m) := by
    unfold runSession
    rw [List.foldl_append, List.foldl_cons, List.foldl_nil]
  refine ⟨by rw [hfold1]; rfl, ?_, by rw [hfold2]; rfl, by rw [hfold2]; rfl⟩
  rw [hfold1]
  simp [stepSession, closeErrors, hc, hc0, hc1000]

/-- C3 amended witness: empty prior trace, close code 1006 with reason
"boom", and a transport error "lost". -/
theorem close_and_error_transitions_witness :
    ((⟨some 1006, some "boom"⟩ : TransportCloseEvent).code = some 1006
      ∧ (1006 : ℕ) ≠ 0 ∧ (1006 : ℕ) ≠ 1000)
    ∧ (runSession [SessionEvent.transportClose ⟨some 1006, some "boom"⟩]).reportedState
        = LiveConnectionState.disconnected
    ∧ (runSession [SessionEvent.transportClose ⟨some 1006, some "boom"⟩]).errors
        = ["Connection closed: boom (code: 1006)"]
    ∧ (runSession [SessionEvent.transportError "lost"]).reportedState
        = LiveConnectionState.error
    ∧ (runSession [SessionEvent.transportError "lost"]).errors
        = ["Connection error: lost"] := by
  have h := close_and_error_transitions [] ⟨some 1006, some "boom"⟩ 1006 "lost"
    rfl (by omega) (by omega)
  refine ⟨⟨rfl, by omega, by omega⟩, ?_, ?_, ?_, ?_⟩
  · simpa using h.1
  · have := h.2.1
    simpa [runSession, initSession] using this
  · simpa using h.2.2.1
  · have := h.2.2.2
    simpa [runSession, initSession] using this

/-! ## Tool-call round trip (startLiveSession onmessage, toolCall branch) -/

/-- Arguments of a `generateTable` invocation; each field may be absent in
the payload. Row objects are modelled as association lists keyed by column
name. -/
structure ToolArgs where
  title : Option String
  columns : Option (List String)
  rows : Option (List (List (String × String)))
  summary : Option String
deriving DecidableEq, Repr

/-- A received tool invocation `{id, name, args}`. -/
structure FunctionCallMsg where
  id : String
  name : String
  args : ToolArgs
deriving DecidableEq, Repr

/-- The `TableData` record assembled by the handler. -/
structure TableData where
  title : String
  columns : List String
  rows : List (List (String × String))
  summary : Option String
deriving DecidableEq, Repr

/-- One `onMessage` notification to the Extraction Sink:
`onMessage(args.summary, { type: 'GENERATE_TABLE' }, tableData)`. -/
structure SinkCall where
  text : Option String
  action : String
  table : TableData
deriving DecidableEq, Repr

/-- One outbound `sendToolResponse` frame:
`{ id: fc.id, name: fc.name, response: { result: "Table displayed to user." } }`. -/
structure ToolResponseMsg where
  id : String
  name : String
  result : String
deriving DecidableEq, Repr

/-- Handling of one element of `message.toolCall.functionCalls`: only a call
named `generateTable` produces effects — one Sink notification built from the
defaulted arguments (`args.title || 'Data'`, `args.columns || []`,
`args.rows || []`, `args.summary` passed through; an array is always truthy
in JavaScript, so an absent array defaults but an empty one is kept) and one
tool-response frame carrying the same `id` and `name`. -/
def handleFunctionCall (fc : FunctionCallMsg) : List SinkCall × List ToolResponseMsg :=
  if fc.name = "generateTable" then
    let tableData : TableData :=
      { title := jsOrString fc.args.title "Data"
        columns := fc.args.columns.getD []
        rows := fc.args.rows.getD []
        summary := fc.args.summary }
    ([{ text := fc.args.summary, action := "GENERATE_TABLE", table := tableData }],
      [{ id := fc.id, name := fc.name, result := "Table displayed to user." }])
  else ([], [])

/-- The `for (const fc of message.toolCall.functionCalls)` loop of the
`onmessage` handler, collecting Sink notifications and tool responses in
order. -/
def handleToolCall (fcs : List FunctionCallMsg) : List SinkCall × List ToolResponseMsg :=
  fcs.foldl (fun acc fc =>
    (acc.1 ++ (handleFunctionCall fc).1, acc.2 ++ (handleFunctionCall fc).2)) ([], [])

/-- C5: the received table-generation invocation
`{id:"abc", name:"generateTable", args:{title:"T", columns:["A"],
rows:[{A:"1"}]}}` (the spec labels the tool "generate-table") produces
exactly one Extraction-Sink notification — table titled "T", columns
`["A"]`, rows `[{A:"1"}]`, absent summary — and exactly one outbound
tool-result frame carrying the same identifier "abc". -/
theorem tool_call_round_trip :
    handleToolCall
        [⟨"abc", "generateTable", ⟨some "T", some ["A"], some [[("A", "1")]], none⟩⟩]
      = ([⟨none, "GENERATE_TABLE", ⟨"T", ["A"], [[("A", "1")]], none⟩⟩],
         [⟨"abc", "generateTable", "Table displayed to user."⟩])
    ∧ (handleToolCall
        [⟨"abc", "generateTable", ⟨some "T", some ["A"], some [[("A", "1")]], none⟩⟩]).1.length
      = 1
    ∧ (handleToolCall
        [⟨"abc", "generateTable", ⟨some "T", some ["A"], some [[("A", "1")]], none⟩⟩]).2.map
          (fun r => r.id)
      = ["abc"] := by
  refine ⟨?_, ?_, ?_⟩ <;> rfl

/-! ## C10: the PCM16 encoder -/

/-- C10: every wire sample of `createBlob` is the float sample times 32768,
truncated toward zero and wrapped modulo 2^16 into the signed 16-bit range —
it lies in `[-32768, 32768)` and is congruent modulo 65536 to the truncated
scaled input; in particular a full-scale input sample of exactly 1.0 encodes
to -32768, the most negative value, not to 32767. -/
theorem createBlob_wrap16 (data : List ℚ) (i : ℕ) (hi : i < data.length) :
    (-32768 ≤ (createBlob data).getD i 0 ∧ (createBlob data).getD i 0 < 32768)
    ∧ (createBlob data).getD i 0 ≡ jsTrunc (data.getD i 0 * 32768) [ZMOD 65536]
    ∧ createBlob [(1 : ℚ)] = [-32768] := by
  have hval : (createBlob data).getD i 0 = toInt16 (data.getD i 0 * 32768) := by
    unfold createBlob
    rw [List.getD_eq_getElem?_getD, List.getElem?_map]
    rw [List.getElem?_eq_getElem hi]
    simp [List.getD_eq_getElem?_getD, List.getElem?_eq_getElem hi]
  have hone : createBlob [(1 : ℚ)] = [-32768] := by
    have h1 : jsTrunc ((1 : ℚ) * 32768) = 32768 := by
      norm_num [jsTrunc]
    simp only [createBlob, List.map_cons, List.map_nil, toInt16, h1]
    norm_num
  rw [hval]
  exact ⟨toInt16_bounds _, toInt16_modeq _, hone⟩

/-- C10 witness: the one-sample buffer `[1.0]` at index 0: the encoded value
-32768 is in range and congruent to the truncation 32768 modulo 65536. -/
theorem createBlob_wrap16_witness :
    ((0 : ℕ) < ([(1 : ℚ)] : List ℚ).length)
    ∧ (-32768 ≤ (createBlob [(1 : ℚ)]).getD 0 0 ∧ (createBlob [(1 : ℚ)]).getD 0 0 < 32768)
    ∧ (createBlob [(1 : ℚ)]).getD 0 0 ≡ jsTrunc (([(1 : ℚ)] : List ℚ).getD 0 0 * 32768)
        [ZMOD 65536] := by
  have h := createBlob_wrap16 [(1 : ℚ)] 0 (by simp)
  exact ⟨by simp, h.1, h.2.1⟩

end VoiceToTables
